import Mathlib

/-!
Lap-dependent entities (`src/components/lap_dependent.cpp`)

A shallow embedding of `LapDependentComponent`: the per-frame update that
shows or hides every lap-dependent entity according to the raft's
`total_lap_progress`, and the two bulk operations wired to the editor.

The component's data is an ordered list of `(entity, data)` records.  The calls
made into the render-mesh and physics components are recorded, in call order,
in a trace that is carried next to the component data.
-/

namespace LapDependent

/-! ## C++ `float` -/

/-- The C++ type `float` of `min_lap`, `max_lap` and `total_lap_progress`: an
IEEE-754 binary32 value given by its 32-bit pattern (bit 31 sign, bits 30..23
exponent, bits 22..0 fraction).  Only the comparisons are used by the component. -/
structure F32 where
  bits : Nat
  bits_lt : bits < 4294967296
deriving DecidableEq

namespace F32

/-- The sign bit. -/
def sign (x : F32) : Nat := x.bits / 2147483648

/-- Exponent and fraction, the low 31 bits. -/
def magnitude (x : F32) : Nat := x.bits % 2147483648

/-- A NaN has all exponent bits set and a nonzero fraction, that is a
magnitude above the one of infinity, `0x7F800000`. -/
def isNaN (x : F32) : Bool := decide (2139095040 < x.magnitude)

/-- Position of a non-NaN value in the IEEE order: binary32 is sign-magnitude,
so the values are ordered as the signed magnitudes (`-0` and `+0` coincide). -/
def key (x : F32) : Int :=
  if x.sign = 0 then (x.magnitude : Int) else -(x.magnitude : Int)

/-- C++ `a <= b` on `float`: false as soon as one operand is NaN. -/
def le (a b : F32) : Bool := !a.isNaN && !b.isNaN && decide (a.key ≤ b.key)

/-- C++ `a < b` on `float`: false as soon as one operand is NaN. -/
def lt (a b : F32) : Bool := !a.isNaN && !b.isNaN && decide (a.key < b.key)

/-- C++ `a >= b` on `float`. -/
def ge (a b : F32) : Bool := le b a

/-- C++ `a > b` on `float`. -/
def gt (a b : F32) : Bool := lt b a

/-- The value with the given bit pattern (reduced to 32 bits). -/
def ofBits (n : Nat) : F32 := ⟨n % 4294967296, Nat.mod_lt n (by decide)⟩

/-- The literal `0.0f`. -/
def zero : F32 := ofBits 0

end F32

/-! ## Data model -/

/-- Modelled from the spec: `corgi::EntityRef` (corgi library, not among the
sources) for a live entity, reduced to the entity's identity. -/
abbrev EntityRef := Nat

/-- Modelled from the spec: `LapDependentData`, declared in the header
`components/lap_dependent.h` (not among the sources): the two bounds of the
activation window and the flag of the last applied state. -/
structure LapDependentData where
  min_lap : F32
  max_lap : F32
  currently_active : Bool
deriving DecidableEq

/-- Modelled from the spec: one element of `component_data_`, declared by the
corgi component base class (not among the sources): the entity together with its
data, read as `iter->entity` and through `GetComponentData`. -/
structure ComponentData where
  entity : EntityRef
  data : LapDependentData
deriving DecidableEq

/-- Modelled from the spec: `RailDenizenData`, declared in
`components/rail_denizen.h` (not among the sources), reduced to the one field
that is read here. -/
structure RailDenizenData where
  total_lap_progress : F32
deriving DecidableEq

/-- Modelled from the spec: what `entity_manager_` (corgi, not among the sources)
answers to this component.  `raft_entity` is `none` when `ServicesComponent::raft_entity()` is not a valid
reference, `rail_denizen e` is `Data<RailDenizenData>(e)` (`none` for a null
pointer), and the three flags tell whether `GetComponent<RenderMeshComponent>()`,
`GetComponent<PhysicsComponent>()` and `scene_lab()` are non-null. -/
structure EntityManager where
  raft_entity : Option EntityRef
  rail_denizen : EntityRef → Option RailDenizenData
  render_mesh : Bool
  physics : Bool
  scene_lab : Bool

/-- A call made into the render-mesh or the physics component. -/
inductive SinkCall where
  | SetVisibilityRecursively (entity : EntityRef) (visible : Bool)
  | EnablePhysics (entity : EntityRef)
  | DisablePhysics (entity : EntityRef)
deriving DecidableEq

/-- The mutable state: the component's records in iteration order and the
trace of the sink calls made so far, oldest first. -/
structure World where
  component_data_ : List ComponentData
  calls : List SinkCall
deriving DecidableEq

/-- Modelled from the spec: `GetComponentData(entity)` of the corgi component
base class (not among the sources): the data registered for `entity`, `none` for
the null pointer.  The store is keyed by entity identity. -/
def GetComponentData : List ComponentData → EntityRef → Option LapDependentData
  | [], _ => none
  | c :: cs, entity =>
    if c.entity = entity then some c.data else GetComponentData cs entity

/-- The write `data->currently_active = b` through the pointer that
`GetComponentData(entity)` returned. -/
def set_currently_active :
    List ComponentData → EntityRef → Bool → List ComponentData
  | [], _, _ => []
  | c :: cs, entity, b =>
    if c.entity = entity then
      { c with data := { c.data with currently_active := b } } :: cs
    else c :: set_currently_active cs entity b

/-- Records one sink call at the end of the trace. -/
def World.call (w : World) (c : SinkCall) : World :=
  { w with calls := w.calls ++ [c] }

/-- The entities of `component_data_` in iteration order, what `iter->entity`
runs through in `for (iter = begin(); iter != end(); ++iter)`. -/
def entities (cs : List ComponentData) : List EntityRef :=
  cs.map (fun c => c.entity)

/-! ## The component's operations -/

/-- The condition `lap >= data->min_lap && lap <= data->max_lap`. -/
def in_lap_range (lap : F32) (data : LapDependentData) : Bool :=
  F32.ge lap data.min_lap && F32.le lap data.max_lap

/-- One iteration of the loop of `UpdateAllEntities`, at `iter->entity = entity`.
`none` is the dereference of a null `data`. -/
def UpdateAllEntities_body (em : EntityManager) (lap : F32) (w : World)
    (entity : EntityRef) : Option World :=
  match GetComponentData w.component_data_ entity with
  | none => none
  | some data =>
    if in_lap_range lap data then
      if data.currently_active then some w
      else
        let w1 : World :=
          { w with component_data_ := set_currently_active w.component_data_ entity true }
        let w2 := if em.render_mesh then
          w1.call (SinkCall.SetVisibilityRecursively entity true) else w1
        let w3 := if em.physics then w2.call (SinkCall.EnablePhysics entity) else w2
        some w3
    else if data.currently_active then
      let w1 : World :=
        { w with component_data_ := set_currently_active w.component_data_ entity false }
      let w2 := if em.render_mesh then
        w1.call (SinkCall.SetVisibilityRecursively entity false) else w1
      let w3 := if em.physics then w2.call (SinkCall.DisablePhysics entity) else w2
      some w3
    else some w

/-- The loop of `UpdateAllEntities` over the entities still to visit.  The body
writes flags only, so the records and their order are those found at entry. -/
def UpdateAllEntities_loop (em : EntityManager) (lap : F32) :
    List EntityRef → World → Option World
  | [], w => some w
  | entity :: rest, w =>
    match UpdateAllEntities_body em lap w entity with
    | none => none
    | some w1 => UpdateAllEntities_loop em lap rest w1

/-- `LapDependentComponent::UpdateAllEntities`. -/
def UpdateAllEntities (em : EntityManager) (w : World) : Option World :=
  match em.raft_entity with
  | none => some w
  | some raft =>
    let lap : F32 :=
      match em.rail_denizen raft with
      | some raft_rail_denizen => raft_rail_denizen.total_lap_progress
      | none => F32.zero
    UpdateAllEntities_loop em lap (entities w.component_data_) w

/-- `LapDependentComponent::ActivateEntity`. -/
def ActivateEntity (em : EntityManager) (w : World) (entity : EntityRef) : World :=
  match GetComponentData w.component_data_ entity with
  | none => w
  | some _ =>
    let w1 : World :=
      { w with component_data_ := set_currently_active w.component_data_ entity true }
    let w2 := if em.render_mesh then
      w1.call (SinkCall.SetVisibilityRecursively entity true) else w1
    if em.physics then w2.call (SinkCall.EnablePhysics entity) else w2

/-- `LapDependentComponent::DeactivateEntity`. -/
def DeactivateEntity (em : EntityManager) (w : World) (entity : EntityRef) : World :=
  match GetComponentData w.component_data_ entity with
  | none => w
  | some _ =>
    let w1 : World :=
      { w with component_data_ := set_currently_active w.component_data_ entity false }
    let w2 := if em.render_mesh then
      w1.call (SinkCall.SetVisibilityRecursively entity false) else w1
    if em.physics then w2.call (SinkCall.DisablePhysics entity) else w2

/-- The loop of `ActivateAllEntities` over the entities still to visit. -/
def ActivateAllEntities_loop (em : EntityManager) : List EntityRef → World → World
  | [], w => w
  | entity :: rest, w => ActivateAllEntities_loop em rest (ActivateEntity em w entity)

/-- `LapDependentComponent::ActivateAllEntities`. -/
def ActivateAllEntities (em : EntityManager) (w : World) : World :=
  ActivateAllEntities_loop em (entities w.component_data_) w

/-- The loop of `DeactivateAllEntities` over the entities still to visit. -/
def DeactivateAllEntities_loop (em : EntityManager) : List EntityRef → World → World
  | [], w => w
  | entity :: rest, w => DeactivateAllEntities_loop em rest (DeactivateEntity em w entity)

/-- `LapDependentComponent::DeactivateAllEntities`. -/
def DeactivateAllEntities (em : EntityManager) (w : World) : World :=
  DeactivateAllEntities_loop em (entities w.component_data_) w

/-! ## Loading, exporting and the editor callbacks -/

/-- Modelled from the spec: `LapDependentDef`, the flatbuffers table generated
from the schema (not among the sources), read through `min_lap()` and
`max_lap()` and written through `LapDependentDefBuilder`: the persisted record
of two `float` fields. -/
structure LapDependentDef where
  min_lap : F32
  max_lap : F32
deriving DecidableEq

/-- Modelled from the spec: `AddEntity(entity)` of the corgi component base
class (not among the sources): registers a new record for `entity` at the end of
`component_data_`, its data freshly constructed with `currently_active = false`,
and returns a pointer to that data.  The bounds of the fresh data are not yet
meaningful (`0.0f` here).  Registering an entity twice is left undefined by the
specification: `none`. -/
def AddEntity (cs : List ComponentData) (entity : EntityRef) : Option (List ComponentData) :=
  match GetComponentData cs entity with
  | some _ => none
  | none => some (cs ++ [⟨entity, ⟨F32.zero, F32.zero, false⟩⟩])

/-- The write `data->min_lap = x` through the pointer to the data of `entity`. -/
def set_min_lap : List ComponentData → EntityRef → F32 → List ComponentData
  | [], _, _ => []
  | c :: cs, entity, x =>
    if c.entity = entity then { c with data := { c.data with min_lap := x } } :: cs
    else c :: set_min_lap cs entity x

/-- The write `data->max_lap = x` through the pointer to the data of `entity`. -/
def set_max_lap : List ComponentData → EntityRef → F32 → List ComponentData
  | [], _, _ => []
  | c :: cs, entity, x =>
    if c.entity = entity then { c with data := { c.data with max_lap := x } } :: cs
    else c :: set_max_lap cs entity x

/-- `LapDependentComponent::AddFromRawData`. -/
def AddFromRawData (cs : List ComponentData) (entity : EntityRef)
    (lap_dependent_def : LapDependentDef) : Option (List ComponentData) :=
  match AddEntity cs entity with
  | none => none
  | some cs1 =>
    let cs2 := set_min_lap cs1 entity lap_dependent_def.min_lap
    some (set_max_lap cs2 entity lap_dependent_def.max_lap)

/-- `LapDependentComponent::ExportRawData`; `none` is the null pointer. -/
def ExportRawData (cs : List ComponentData) (entity : EntityRef) : Option LapDependentDef :=
  match GetComponentData cs entity with
  | none => none
  | some data => some { min_lap := data.min_lap, max_lap := data.max_lap }

/-- A callback handed to Scene Lab: a closure over the component, run later
against the state the component then has. -/
abbrev EditorCallback := EntityManager → World → World

/-- Modelled from the spec: the callbacks registered with `scene_lab::SceneLab`
(not among the sources) through `AddOnEnterEditorCallback` and
`AddOnExitEditorCallback`, in registration order. -/
structure SceneLab where
  on_enter_editor : List EditorCallback
  on_exit_editor : List EditorCallback

/-- `LapDependentComponent::Init`, on the callbacks registered so far and the
component state.  `em.scene_lab` tells whether `services->scene_lab()` is
non-null. -/
def Init (em : EntityManager) (lab : SceneLab) (w : World) : SceneLab × World :=
  if em.scene_lab then
    let lab1 : SceneLab :=
      { lab with on_enter_editor := lab.on_enter_editor ++ [fun em1 w1 => ActivateAllEntities em1 w1] }
    let lab2 : SceneLab :=
      { lab1 with on_exit_editor := lab1.on_exit_editor ++ [fun em1 w1 => DeactivateAllEntities em1 w1] }
    (lab2, w)
  else (lab, w)

/-! ## Vocabulary of the specification -/

/-- The store invariant of corgi components: an entity owns at most one record
of `component_data_`. -/
def WellFormed (cs : List ComponentData) : Prop := (entities cs).Nodup

instance (cs : List ComponentData) : Decidable (WellFormed cs) := by
  unfold WellFormed; infer_instance

/-- The progress carrier resolves and supplies progress `p`: the raft reference
is valid and the raft has rail-denizen data with `total_lap_progress = p`. -/
def ResolvedCarrier (em : EntityManager) (p : F32) : Prop :=
  ∃ raft, em.raft_entity = some raft ∧ em.rail_denizen raft = some ⟨p⟩

/-- The record `c` with its `currently_active` flag replaced by `b`. -/
def with_active (b : Bool) (c : ComponentData) : ComponentData :=
  { c with data := { c.data with currently_active := b } }

/-- The record `c` with its flag set to whether `p` lies in its window. -/
def retarget (p : F32) (c : ComponentData) : ComponentData :=
  with_active (in_lap_range p c.data) c

/-- The calls that switch entity `entity` on (`b = true`) or off, each made only
when its sink is present. -/
def sink_calls (em : EntityManager) (entity : EntityRef) (b : Bool) : List SinkCall :=
  (if em.render_mesh then [SinkCall.SetVisibilityRecursively entity b] else []) ++
  (if em.physics then
    [if b then SinkCall.EnablePhysics entity else SinkCall.DisablePhysics entity]
   else [])

/-- The calls a tick at progress `p` makes for record `c`: none when the flag
already agrees with the window test, the switching calls otherwise. -/
def update_calls (em : EntityManager) (p : F32) (c : ComponentData) : List SinkCall :=
  if in_lap_range p c.data = c.data.currently_active then []
  else sink_calls em c.entity (in_lap_range p c.data)

/-- The current `currently_active` flag of `entity`, `none` without a record. -/
def active_flag (w : World) (entity : EntityRef) : Option Bool :=
  (GetComponentData w.component_data_ entity).map (fun d => d.currently_active)

/-- The entity a sink call is about. -/
def SinkCall.target : SinkCall → EntityRef
  | SinkCall.SetVisibilityRecursively e _ => e
  | SinkCall.EnablePhysics e => e
  | SinkCall.DisablePhysics e => e

/-- The calls of a trace that concern `entity`, in order. -/
def calls_for (entity : EntityRef) (calls : List SinkCall) : List SinkCall :=
  calls.filter (fun c => decide (c.target = entity))

/-- Whether a call goes to the visibility sink. -/
def is_visibility_call : SinkCall → Bool
  | SinkCall.SetVisibilityRecursively _ _ => true
  | _ => false

/-- Whether a call goes to the physics sink. -/
def is_physics_call : SinkCall → Bool
  | SinkCall.EnablePhysics _ => true
  | SinkCall.DisablePhysics _ => true
  | _ => false

/-- Runs `UpdateAllEntities` `n` times in a row with the same entity manager. -/
def UpdateAllEntities_repeat (em : EntityManager) : Nat → World → Option World
  | 0, w => some w
  | n + 1, w =>
    match UpdateAllEntities em w with
    | none => none
    | some w1 => UpdateAllEntities_repeat em n w1

/-! ## Concrete inputs -/

/-- An entity manager whose raft (entity `0`) resolves and carries progress `p`,
with both sinks and the editor present. -/
def em_at (p : F32) : EntityManager :=
  { raft_entity := some 0
    rail_denizen := fun _ => some ⟨p⟩
    render_mesh := true
    physics := true
    scene_lab := true }

/-- An entity manager whose raft reference is not valid. -/
def em_no_raft : EntityManager :=
  { raft_entity := none
    rail_denizen := fun _ => none
    render_mesh := true
    physics := true
    scene_lab := true }

/-- An entity manager whose raft resolves but has no rail-denizen data. -/
def em_no_rail : EntityManager :=
  { raft_entity := some 0
    rail_denizen := fun _ => none
    render_mesh := true
    physics := true
    scene_lab := true }

/-- The floats `-1.0f`, `0.5f`, `1.0f`, `1.5f`, `2.0f`, `2.5f`. -/
def f_neg_one : F32 := F32.ofBits 3212836864
def f_half : F32 := F32.ofBits 1056964608
def f_one : F32 := F32.ofBits 1065353216
def f_one_half : F32 := F32.ofBits 1069547520
def f_two : F32 := F32.ofBits 1073741824
def f_two_half : F32 := F32.ofBits 1075838976

/-- Three records: entity `1` with window `[1.0, 2.0]`, active; entity `2` with
window `[-1.0, 1.0]`, inactive; entity `3` with window `[0.5, 2.5]`, inactive. -/
def demo_world : World :=
  { component_data_ :=
      [⟨1, ⟨f_one, f_two, true⟩⟩, ⟨2, ⟨f_neg_one, f_one, false⟩⟩,
       ⟨3, ⟨f_half, f_two_half, false⟩⟩]
    calls := [] }

/-- The float `1.2f` (nearest binary32 value, `0x3F99999A`). -/
def f_one_fifth : F32 := F32.ofBits 1067030938

/-- The record of the example scenario, entity `5` with window `[1.0, 2.0]`. -/
def scenario_record (active : Bool) : ComponentData := ⟨5, ⟨f_one, f_two, active⟩⟩

/-- Two records, the first with the malformed window `[2.0, 1.0]`, active. -/
def malformed_world : World :=
  { component_data_ := [⟨7, ⟨f_two, f_one, true⟩⟩, ⟨8, ⟨f_one, f_two, false⟩⟩]
    calls := [] }

/-- A store that shares only entity `3` and its record with `demo_world`. -/
def other_world : World :=
  { component_data_ := [⟨3, ⟨f_half, f_two_half, false⟩⟩, ⟨9, ⟨f_one, f_one, true⟩⟩]
    calls := [SinkCall.EnablePhysics 9] }

/-! ## Sinks as state and sink presence -/

/-- The entity manager `em` with the presence of the render-mesh component and
of the physics component replaced by `v` and `ph`. -/
def with_sinks (em : EntityManager) (v ph : Bool) : EntityManager :=
  { em with render_mesh := v, physics := ph }

/-- What the frame rule keeps: entity and bounds of every record, in order. -/
def configuration (cs : List ComponentData) : List (EntityRef × F32 × F32) :=
  cs.map (fun c => (c.entity, c.data.min_lap, c.data.max_lap))

/-- Modelled from the spec: the state of the two sinks (the render-mesh and the
physics component of the corgi component library, not among the sources), per
entity: whether the entity is shown and whether its physics is enabled; and the
render hierarchy that the visibility sink walks, `below e x` telling whether `x`
lies below `e` in it. -/
structure Sinks where
  visible : EntityRef → Bool
  physics_enabled : EntityRef → Bool
  below : EntityRef → EntityRef → Bool

/-- Modelled from the spec: the effect of one call on the sinks.
`SetVisibilityRecursively(e, b)` is applied recursively to the render hierarchy
of `e`: it writes the visibility of `e` and of every entity below `e`.
`EnablePhysics(e)` and `DisablePhysics(e)` write the physics of `e`. -/
def Sinks.apply_call (s : Sinks) : SinkCall → Sinks
  | SinkCall.SetVisibilityRecursively e b =>
    { s with visible := fun x => if x = e ∨ s.below e x = true then b else s.visible x }
  | SinkCall.EnablePhysics e =>
    { s with physics_enabled := fun x => if x = e then true else s.physics_enabled x }
  | SinkCall.DisablePhysics e =>
    { s with physics_enabled := fun x => if x = e then false else s.physics_enabled x }

/-- The effect of a trace of calls, oldest first. -/
def Sinks.apply_calls (s : Sinks) (calls : List SinkCall) : Sinks :=
  calls.foldl Sinks.apply_call s

/-- The component's records together with the state of the two sinks. -/
structure Scene where
  component_data_ : List ComponentData
  sinks : Sinks

/-- Every record's entity is shown, and has its physics enabled, exactly when
the record is `currently_active`. -/
def Scene.consistent (sys : Scene) : Prop :=
  ∀ c ∈ sys.component_data_,
    sys.sinks.visible c.entity = c.data.currently_active ∧
    sys.sinks.physics_enabled c.entity = c.data.currently_active

instance (sys : Scene) : Decidable sys.consistent := by
  unfold Scene.consistent; infer_instance

/-- No record's entity lies below the entity of another record in the render
hierarchy. -/
def Scene.nesting_free (sys : Scene) : Prop :=
  ∀ a ∈ entities sys.component_data_, ∀ b ∈ entities sys.component_data_,
    a ≠ b → sys.sinks.below a b = false

instance (sys : Scene) : Decidable sys.nesting_free := by
  unfold Scene.nesting_free; infer_instance

/-- The operations that write the flag or call the sinks. `Tick p` is
`UpdateAllEntities` with the raft resolved at progress `p`. -/
inductive Operation where
  | Tick (p : F32)
  | ActivateAll
  | DeactivateAll
  | Activate (entity : EntityRef)
  | Deactivate (entity : EntityRef)

/-- Runs one operation with both sinks present and lets the sinks take the
calls it makes. -/
def Scene.apply (sys : Scene) : Operation → Option Scene
  | Operation.Tick p =>
    match UpdateAllEntities (em_at p) ⟨sys.component_data_, []⟩ with
    | none => none
    | some w1 => some ⟨w1.component_data_, sys.sinks.apply_calls w1.calls⟩
  | Operation.ActivateAll =>
    let w1 := ActivateAllEntities (em_at F32.zero) ⟨sys.component_data_, []⟩
    some ⟨w1.component_data_, sys.sinks.apply_calls w1.calls⟩
  | Operation.DeactivateAll =>
    let w1 := DeactivateAllEntities (em_at F32.zero) ⟨sys.component_data_, []⟩
    some ⟨w1.component_data_, sys.sinks.apply_calls w1.calls⟩
  | Operation.Activate entity =>
    let w1 := ActivateEntity (em_at F32.zero) ⟨sys.component_data_, []⟩ entity
    some ⟨w1.component_data_, sys.sinks.apply_calls w1.calls⟩
  | Operation.Deactivate entity =>
    let w1 := DeactivateEntity (em_at F32.zero) ⟨sys.component_data_, []⟩ entity
    some ⟨w1.component_data_, sys.sinks.apply_calls w1.calls⟩

/-- Runs a sequence of operations, first to last. -/
def Scene.run : List Operation → Scene → Option Scene
  | [], sys => some sys
  | op :: ops, sys =>
    match sys.apply op with
    | none => none
    | some sys1 => Scene.run ops sys1

/-- A scene on the records of `demo_world` whose sinks agree with the flags:
only entity `1` is shown and simulated.  Entity `10`, which has no record, lies
below entity `1` in the render hierarchy. -/
def demo_scene : Scene :=
  { component_data_ := demo_world.component_data_
    sinks :=
      { visible := fun e => decide (e = 1)
        physics_enabled := fun e => decide (e = 1)
        below := fun a b => decide (a = 1 ∧ b = 10) } }

/-- Two active records, entity `1` with window `[1.0, 2.0]` and entity `2` with
window `[0.5, 2.5]`, both shown and simulated; entity `2` lies below entity `1`
in the render hierarchy. -/
def nested_scene : Scene :=
  { component_data_ := [⟨1, ⟨f_one, f_two, true⟩⟩, ⟨2, ⟨f_half, f_two_half, true⟩⟩]
    sinks :=
      { visible := fun _ => true
        physics_enabled := fun _ => true
        below := fun a b => decide (a = 1 ∧ b = 2) } }

/-! ## Basic facts about the store -/

theorem entities_append (xs ys : List ComponentData) :
    entities (xs ++ ys) = entities xs ++ entities ys := by
  simp [entities]

theorem entities_map_with_active (f : ComponentData → Bool) (cs : List ComponentData) :
    entities (cs.map (fun c => with_active (f c) c)) = entities cs := by
  simp [entities, with_active, Function.comp_def]

theorem with_active_self (c : ComponentData) :
    with_active c.data.currently_active c = c := by
  rcases c with ⟨e, ⟨lo, hi, a⟩⟩
  rfl

theorem GetComponentData_append_cons (pre suf : List ComponentData) (c : ComponentData)
    (h : c.entity ∉ entities pre) :
    GetComponentData (pre ++ c :: suf) c.entity = some c.data := by
  induction pre with
  | nil => simp [GetComponentData]
  | cons x xs ih =>
    have hx : x.entity ≠ c.entity := by
      intro hxc
      exact h (by simp [entities, hxc])
    have hxs : c.entity ∉ entities xs := by
      intro hm
      exact h (by simp only [entities, List.map_cons, List.mem_cons]; exact Or.inr hm)
    simp [GetComponentData, hx, ih hxs]

theorem set_currently_active_append_cons (pre suf : List ComponentData) (c : ComponentData)
    (b : Bool) (h : c.entity ∉ entities pre) :
    set_currently_active (pre ++ c :: suf) c.entity b = pre ++ with_active b c :: suf := by
  induction pre with
  | nil => simp [set_currently_active, with_active]
  | cons x xs ih =>
    have hx : x.entity ≠ c.entity := by
      intro hxc
      exact h (by simp [entities, hxc])
    have hxs : c.entity ∉ entities xs := by
      intro hm
      exact h (by simp only [entities, List.map_cons, List.mem_cons]; exact Or.inr hm)
    simp [set_currently_active, hx, ih hxs]

theorem wellFormed_split (pre suf : List ComponentData) (c : ComponentData)
    (h : WellFormed (pre ++ c :: suf)) (b : Bool) :
    c.entity ∉ entities pre ∧ WellFormed ((pre ++ [with_active b c]) ++ suf) := by
  unfold WellFormed at *
  simp only [entities, List.map_append, List.map_cons, List.map_nil, with_active,
    List.append_assoc, List.singleton_append] at *
  refine ⟨?_, h⟩
  intro hm
  rw [List.nodup_append] at h
  exact h.2.2 hm (by simp)

/-! ## What the three loops compute -/

theorem UpdateAllEntities_body_spec (em : EntityManager) (lap : F32)
    (pre suf : List ComponentData) (c : ComponentData) (calls : List SinkCall)
    (h : c.entity ∉ entities pre) :
    UpdateAllEntities_body em lap ⟨pre ++ c :: suf, calls⟩ c.entity =
      some ⟨pre ++ retarget lap c :: suf, calls ++ update_calls em lap c⟩ := by
  unfold UpdateAllEntities_body
  simp only [GetComponentData_append_cons pre suf c h,
    set_currently_active_append_cons pre suf c _ h]
  unfold retarget update_calls sink_calls World.call
  cases hr : in_lap_range lap c.data <;> cases ha : c.data.currently_active <;>
    cases hv : em.render_mesh <;> cases hp : em.physics <;>
    (have hs := with_active_self c
     rw [ha] at hs
     simp [hs])

theorem UpdateAllEntities_loop_spec (em : EntityManager) (lap : F32)
    (suf : List ComponentData) :
    ∀ (pre : List ComponentData) (calls : List SinkCall), WellFormed (pre ++ suf) →
      UpdateAllEntities_loop em lap (entities suf) ⟨pre ++ suf, calls⟩ =
        some ⟨pre ++ suf.map (retarget lap),
          calls ++ suf.flatMap (update_calls em lap)⟩ := by
  induction suf with
  | nil =>
    intro pre calls _
    simp [entities, UpdateAllEntities_loop]
  | cons c suf ih =>
    intro pre calls hwf
    obtain ⟨hc, hwf2⟩ := wellFormed_split pre suf c hwf (in_lap_range lap c.data)
    have hstep := UpdateAllEntities_body_spec em lap pre suf c calls hc
    have hnext := ih (pre ++ [retarget lap c]) (calls ++ update_calls em lap c) hwf2
    simp only [List.append_assoc, List.singleton_append] at hnext
    simp only [entities, List.map_cons, UpdateAllEntities_loop, hstep]
    simpa [entities] using hnext

theorem ActivateEntity_spec (em : EntityManager)
    (pre suf : List ComponentData) (c : ComponentData) (calls : List SinkCall)
    (h : c.entity ∉ entities pre) :
    ActivateEntity em ⟨pre ++ c :: suf, calls⟩ c.entity =
      ⟨pre ++ with_active true c :: suf, calls ++ sink_calls em c.entity true⟩ := by
  unfold ActivateEntity
  simp only [GetComponentData_append_cons pre suf c h,
    set_currently_active_append_cons pre suf c _ h]
  unfold sink_calls World.call
  cases hv : em.render_mesh <;> cases hp : em.physics <;> simp

theorem DeactivateEntity_spec (em : EntityManager)
    (pre suf : List ComponentData) (c : ComponentData) (calls : List SinkCall)
    (h : c.entity ∉ entities pre) :
    DeactivateEntity em ⟨pre ++ c :: suf, calls⟩ c.entity =
      ⟨pre ++ with_active false c :: suf, calls ++ sink_calls em c.entity false⟩ := by
  unfold DeactivateEntity
  simp only [GetComponentData_append_cons pre suf c h,
    set_currently_active_append_cons pre suf c _ h]
  unfold sink_calls World.call
  cases hv : em.render_mesh <;> cases hp : em.physics <;> simp

theorem ActivateAllEntities_loop_spec (em : EntityManager) (suf : List ComponentData) :
    ∀ (pre : List ComponentData) (calls : List SinkCall), WellFormed (pre ++ suf) →
      ActivateAllEntities_loop em (entities suf) ⟨pre ++ suf, calls⟩ =
        ⟨pre ++ suf.map (with_active true),
          calls ++ suf.flatMap (fun c => sink_calls em c.entity true)⟩ := by
  induction suf with
  | nil =>
    intro pre calls _
    simp [entities, ActivateAllEntities_loop]
  | cons c suf ih =>
    intro pre calls hwf
    obtain ⟨hc, hwf2⟩ := wellFormed_split pre suf c hwf true
    have hstep := ActivateEntity_spec em pre suf c calls hc
    have hnext := ih (pre ++ [with_active true c]) (calls ++ sink_calls em c.entity true) hwf2
    simp only [List.append_assoc, List.singleton_append] at hnext
    simp only [entities, List.map_cons, ActivateAllEntities_loop, hstep]
    simpa [entities] using hnext

theorem DeactivateAllEntities_loop_spec (em : EntityManager) (suf : List ComponentData) :
    ∀ (pre : List ComponentData) (calls : List SinkCall), WellFormed (pre ++ suf) →
      DeactivateAllEntities_loop em (entities suf) ⟨pre ++ suf, calls⟩ =
        ⟨pre ++ suf.map (with_active false),
          calls ++ suf.flatMap (fun c => sink_calls em c.entity false)⟩ := by
  induction suf with
  | nil =>
    intro pre calls _
    simp [entities, DeactivateAllEntities_loop]
  | cons c suf ih =>
    intro pre calls hwf
    obtain ⟨hc, hwf2⟩ := wellFormed_split pre suf c hwf false
    have hstep := DeactivateEntity_spec em pre suf c calls hc
    have hnext := ih (pre ++ [with_active false c]) (calls ++ sink_calls em c.entity false) hwf2
    simp only [List.append_assoc, List.singleton_append] at hnext
    simp only [entities, List.map_cons, DeactivateAllEntities_loop, hstep]
    simpa [entities] using hnext

/-- With a resolved carrier at progress `p`, `UpdateAllEntities` returns, every
record gets the flag of its window test and the calls are those of the
transitions, in iteration order. -/
theorem UpdateAllEntities_resolved (em : EntityManager) (w : World) (p : F32)
    (hwf : WellFormed w.component_data_) (hp : ResolvedCarrier em p) :
    UpdateAllEntities em w =
      some ⟨w.component_data_.map (retarget p),
        w.calls ++ w.component_data_.flatMap (update_calls em p)⟩ := by
  obtain ⟨raft, hraft, hrail⟩ := hp
  have h := UpdateAllEntities_loop_spec em p w.component_data_ [] w.calls (by simpa using hwf)
  simp only [List.nil_append] at h
  simp only [UpdateAllEntities, hraft, hrail]
  exact h

theorem ActivateAllEntities_eq (em : EntityManager) (w : World)
    (hwf : WellFormed w.component_data_) :
    ActivateAllEntities em w =
      ⟨w.component_data_.map (with_active true),
        w.calls ++ w.component_data_.flatMap (fun c => sink_calls em c.entity true)⟩ := by
  have h := ActivateAllEntities_loop_spec em w.component_data_ [] w.calls (by simpa using hwf)
  simpa [ActivateAllEntities] using h

theorem DeactivateAllEntities_eq (em : EntityManager) (w : World)
    (hwf : WellFormed w.component_data_) :
    DeactivateAllEntities em w =
      ⟨w.component_data_.map (with_active false),
        w.calls ++ w.component_data_.flatMap (fun c => sink_calls em c.entity false)⟩ := by
  have h := DeactivateAllEntities_loop_spec em w.component_data_ [] w.calls (by simpa using hwf)
  simpa [DeactivateAllEntities] using h

/-! ## Facts about `float` comparisons -/

theorem F32.ge_self_of_le_left (a b : F32) (h : F32.le a b = true) : F32.ge a a = true := by
  simp only [F32.le, F32.ge, Bool.and_eq_true, Bool.not_eq_true', decide_eq_true_eq] at *
  exact ⟨⟨h.1.1, h.1.1⟩, le_refl _⟩

theorem F32.le_self_of_le_right (a b : F32) (h : F32.le a b = true) : F32.le b b = true := by
  simp only [F32.le, Bool.and_eq_true, Bool.not_eq_true', decide_eq_true_eq] at *
  exact ⟨⟨h.1.2, h.1.2⟩, le_refl _⟩

theorem F32.ge_eq_false_of_lt (a b : F32) (h : F32.lt a b = true) : F32.ge a b = false := by
  simp only [F32.lt, F32.le, F32.ge, Bool.and_eq_true, Bool.not_eq_true', decide_eq_true_eq,
    Bool.and_eq_false_imp, decide_eq_false_iff_not] at *
  intro _ _
  omega

theorem F32.le_eq_false_of_gt (a b : F32) (h : F32.gt a b = true) : F32.le a b = false := by
  simp only [F32.lt, F32.le, F32.gt, Bool.and_eq_true, Bool.not_eq_true', decide_eq_true_eq,
    Bool.and_eq_false_imp, decide_eq_false_iff_not] at *
  intro _ _
  omega

/-! ## Looking one entity up after a loop -/

theorem GetComponentData_map_with_active (f : ComponentData → Bool) (cs : List ComponentData)
    (c : ComponentData) (hwf : WellFormed cs) (hc : c ∈ cs) :
    GetComponentData (cs.map (fun x => with_active (f x) x)) c.entity =
      some (with_active (f c) c).data := by
  induction cs with
  | nil => simp at hc
  | cons x xs ih =>
    have hnd : x.entity ∉ entities xs ∧ WellFormed xs := by
      simpa [WellFormed, entities] using hwf
    rcases List.mem_cons.mp hc with rfl | hmem
    · simp [GetComponentData, with_active]
    · have hne : x.entity ≠ c.entity := by
        intro heq
        apply hnd.1
        rw [heq]
        exact List.mem_map_of_mem (fun c => c.entity) hmem
      simp only [List.map_cons, GetComponentData]
      rw [if_neg (by simpa [with_active] using hne)]
      exact ih hnd.2 hmem

theorem active_flag_retarget (p : F32) (cs : List ComponentData) (calls : List SinkCall)
    (c : ComponentData) (hwf : WellFormed cs) (hc : c ∈ cs) :
    active_flag ⟨cs.map (retarget p), calls⟩ c.entity = some (in_lap_range p c.data) := by
  have h := GetComponentData_map_with_active (fun x => in_lap_range p x.data) cs c hwf hc
  simp only [active_flag]
  show Option.map _ (GetComponentData (cs.map (fun x => with_active (in_lap_range p x.data) x))
    c.entity) = _
  rw [h]
  rfl

/-! ## The calls made for one entity -/

theorem calls_for_append (e : EntityRef) (xs ys : List SinkCall) :
    calls_for e (xs ++ ys) = calls_for e xs ++ calls_for e ys := by
  simp [calls_for]

theorem calls_for_eq_self (e : EntityRef) (xs : List SinkCall)
    (h : ∀ k ∈ xs, k.target = e) : calls_for e xs = xs := by
  simp only [calls_for, List.filter_eq_self, decide_eq_true_eq]
  exact h

theorem calls_for_eq_nil (e e2 : EntityRef) (xs : List SinkCall)
    (h : ∀ k ∈ xs, k.target = e2) (hne : e2 ≠ e) : calls_for e xs = [] := by
  simp only [calls_for, List.filter_eq_nil_iff, decide_eq_true_eq]
  intro k hk heq
  exact hne ((h k hk).symm.trans heq)

theorem calls_for_flatMap_of_not_mem (f : ComponentData → List SinkCall)
    (hf : ∀ x, ∀ k ∈ f x, k.target = x.entity) (cs : List ComponentData) (e : EntityRef)
    (h : e ∉ entities cs) : calls_for e (cs.flatMap f) = [] := by
  induction cs with
  | nil => rfl
  | cons x xs ih =>
    have hx : x.entity ≠ e ∧ e ∉ entities xs := by
      simp only [entities, List.map_cons, List.mem_cons, not_or] at h
      exact ⟨fun heq => h.1 heq.symm, h.2⟩
    rw [List.flatMap_cons, calls_for_append, calls_for_eq_nil e x.entity (f x) (hf x) hx.1,
      ih hx.2]
    rfl

theorem calls_for_flatMap_of_mem (f : ComponentData → List SinkCall)
    (hf : ∀ x, ∀ k ∈ f x, k.target = x.entity) (cs : List ComponentData) (c : ComponentData)
    (hwf : WellFormed cs) (hc : c ∈ cs) : calls_for c.entity (cs.flatMap f) = f c := by
  induction cs with
  | nil => simp at hc
  | cons x xs ih =>
    have hnd : x.entity ∉ entities xs ∧ WellFormed xs := by
      simpa [WellFormed, entities] using hwf
    rw [List.flatMap_cons, calls_for_append]
    rcases List.mem_cons.mp hc with rfl | hmem
    · rw [calls_for_eq_self _ _ (hf c), calls_for_flatMap_of_not_mem f hf xs _ hnd.1]
      simp
    · have hne : x.entity ≠ c.entity := by
        intro heq
        apply hnd.1
        rw [heq]
        exact List.mem_map_of_mem (fun c => c.entity) hmem
      rw [calls_for_eq_nil _ _ _ (hf x) hne, ih hnd.2 hmem]
      rfl

theorem sink_calls_target (em : EntityManager) (e : EntityRef) (b : Bool) :
    ∀ k ∈ sink_calls em e b, k.target = e := by
  intro k hk
  unfold sink_calls at hk
  cases hv : em.render_mesh <;> cases hp : em.physics <;> cases b <;>
    simp [hv, hp] at hk <;> rcases hk with rfl | rfl <;> rfl

theorem update_calls_target (em : EntityManager) (p : F32) (x : ComponentData) :
    ∀ k ∈ update_calls em p x, k.target = x.entity := by
  intro k hk
  unfold update_calls at hk
  split at hk
  · simp at hk
  · exact sink_calls_target em _ _ k hk

theorem update_calls_count (em : EntityManager) (p : F32) (x : ComponentData) :
    (update_calls em p x).countP is_visibility_call ≤ 1 ∧
    (update_calls em p x).countP is_physics_call ≤ 1 := by
  unfold update_calls sink_calls
  cases em.render_mesh <;> cases em.physics <;> cases in_lap_range p x.data <;>
    cases x.data.currently_active <;> simp [is_visibility_call, is_physics_call]

theorem retarget_retarget (p : F32) (c : ComponentData) :
    retarget p (retarget p c) = retarget p c := rfl

theorem update_calls_retarget (em : EntityManager) (p : F32) (c : ComponentData) :
    update_calls em p (retarget p c) = [] := by
  have h : in_lap_range p (retarget p c).data = (retarget p c).data.currently_active := rfl
  simp [update_calls, h]

theorem wellFormed_map_retarget (p : F32) (cs : List ComponentData) (h : WellFormed cs) :
    WellFormed (cs.map (retarget p)) := by
  unfold WellFormed at *
  have := entities_map_with_active (fun x => in_lap_range p x.data) cs
  unfold retarget
  rw [this]
  exact h

theorem UpdateAllEntities_fixed (em : EntityManager) (cs : List ComponentData)
    (calls : List SinkCall) (p : F32) (hwf : WellFormed cs) (hp : ResolvedCarrier em p) :
    UpdateAllEntities em ⟨cs.map (retarget p), calls⟩ = some ⟨cs.map (retarget p), calls⟩ := by
  rw [UpdateAllEntities_resolved em _ p (wellFormed_map_retarget p cs hwf) hp]
  simp [List.flatMap_map, Function.comp_def, retarget_retarget, update_calls_retarget]

/-! ## The per-frame update -/

/-- C1: with a resolved progress carrier at progress `p`, `UpdateAllEntities`
returns, keeps every record in place with its entity and bounds, and sets each
record's `currently_active` to `p >= min_lap && p <= max_lap` for that record's
own bounds, whatever the flags were before. -/
theorem C1_update_sets_flag_to_window_test (em : EntityManager) (w : World) (p : F32)
    (hwf : WellFormed w.component_data_) (hp : ResolvedCarrier em p) :
    ∃ w1, UpdateAllEntities em w = some w1 ∧
      w1.component_data_ = w.component_data_.map (fun c =>
        { c with data := { c.data with
            currently_active := F32.ge p c.data.min_lap && F32.le p c.data.max_lap } }) ∧
      ∀ c ∈ w1.component_data_,
        c.data.currently_active = (F32.ge p c.data.min_lap && F32.le p c.data.max_lap) := by
  refine ⟨_, UpdateAllEntities_resolved em w p hwf hp, rfl, ?_⟩
  intro c hc
  simp only [List.mem_map] at hc
  obtain ⟨x, _, rfl⟩ := hc
  rfl

theorem C1_update_sets_flag_to_window_test_witness :
    ∃ w1, UpdateAllEntities (em_at f_one_half) demo_world = some w1 ∧
      w1.component_data_ = demo_world.component_data_.map (fun c =>
        { c with data := { c.data with
            currently_active :=
              F32.ge f_one_half c.data.min_lap && F32.le f_one_half c.data.max_lap } }) ∧
      ∀ c ∈ w1.component_data_,
        c.data.currently_active =
          (F32.ge f_one_half c.data.min_lap && F32.le f_one_half c.data.max_lap) :=
  C1_update_sets_flag_to_window_test (em_at f_one_half) demo_world f_one_half
    (by decide) ⟨0, rfl, rfl⟩

/-- C2: for a record whose bounds satisfy `min_lap <= max_lap`, an update at
progress `min_lap` and an update at progress `max_lap` each leave the entity
active, whatever its flag was before; and an update at any progress `p` with
`p < min_lap` or `p > max_lap` leaves it inactive, whatever its flag was before. -/
theorem C2_window_bounds_are_inclusive (em_min em_max : EntityManager) (w : World)
    (c : ComponentData)
    (hwf : WellFormed w.component_data_) (hc : c ∈ w.component_data_)
    (hwin : F32.le c.data.min_lap c.data.max_lap = true)
    (hmin : ResolvedCarrier em_min c.data.min_lap)
    (hmax : ResolvedCarrier em_max c.data.max_lap) :
    (∃ w1, UpdateAllEntities em_min w = some w1 ∧ active_flag w1 c.entity = some true) ∧
    (∃ w2, UpdateAllEntities em_max w = some w2 ∧ active_flag w2 c.entity = some true) ∧
    (∀ (em_out : EntityManager) (p : F32), ResolvedCarrier em_out p →
      (F32.lt p c.data.min_lap = true ∨ F32.gt p c.data.max_lap = true) →
      ∃ w3, UpdateAllEntities em_out w = some w3 ∧ active_flag w3 c.entity = some false) := by
  refine ⟨⟨_, UpdateAllEntities_resolved em_min w _ hwf hmin, ?_⟩,
    ⟨_, UpdateAllEntities_resolved em_max w _ hwf hmax, ?_⟩, ?_⟩
  · rw [active_flag_retarget _ _ _ c hwf hc]
    simp [in_lap_range, F32.ge_self_of_le_left _ _ hwin, hwin]
  · rw [active_flag_retarget _ _ _ c hwf hc]
    have h1 : F32.ge c.data.max_lap c.data.min_lap = true := hwin
    simp [in_lap_range, F32.le_self_of_le_right _ _ hwin, h1]
  · intro em_out p hout hp
    refine ⟨_, UpdateAllEntities_resolved em_out w _ hwf hout, ?_⟩
    rw [active_flag_retarget _ _ _ c hwf hc]
    rcases hp with h | h
    · simp [in_lap_range, F32.ge_eq_false_of_lt _ _ h]
    · simp [in_lap_range, F32.le_eq_false_of_gt _ _ h]

theorem C2_window_bounds_are_inclusive_witness :
    (∃ w1, UpdateAllEntities (em_at f_half) demo_world = some w1 ∧
      active_flag w1 3 = some true) ∧
    (∃ w2, UpdateAllEntities (em_at f_two_half) demo_world = some w2 ∧
      active_flag w2 3 = some true) ∧
    (∃ w3, UpdateAllEntities (em_at f_neg_one) demo_world = some w3 ∧
      active_flag w3 3 = some false) :=
  have h := C2_window_bounds_are_inclusive (em_at f_half) (em_at f_two_half)
    demo_world ⟨3, ⟨f_half, f_two_half, false⟩⟩
    (by decide) (by decide) (by decide) ⟨0, rfl, rfl⟩ ⟨0, rfl, rfl⟩
  ⟨h.1, h.2.1, h.2.2 (em_at f_neg_one) f_neg_one ⟨0, rfl, rfl⟩ (Or.inl (by decide))⟩

/-- C3: with a resolved carrier at progress `p`, an update that follows an update
at the same progress changes neither the records nor the trace of sink calls, so
any positive number of updates in a row ends in the state reached by the first
one; and during that first update every entity receives at most one call on the
visibility sink and at most one on the physics sink. -/
theorem C3_update_is_idempotent (em : EntityManager) (w : World) (p : F32)
    (hwf : WellFormed w.component_data_) (hp : ResolvedCarrier em p) :
    ∃ w1 made, UpdateAllEntities em w = some w1 ∧ w1.calls = w.calls ++ made ∧
      UpdateAllEntities em w1 = some w1 ∧
      (∀ n, UpdateAllEntities_repeat em (n + 1) w = some w1) ∧
      (∀ entity, (calls_for entity made).countP is_visibility_call ≤ 1 ∧
        (calls_for entity made).countP is_physics_call ≤ 1) := by
  have hfix := UpdateAllEntities_fixed em w.component_data_
    (w.calls ++ w.component_data_.flatMap (update_calls em p)) p hwf hp
  have hrep : ∀ n, UpdateAllEntities_repeat em n
      ⟨w.component_data_.map (retarget p),
        w.calls ++ w.component_data_.flatMap (update_calls em p)⟩ =
      some ⟨w.component_data_.map (retarget p),
        w.calls ++ w.component_data_.flatMap (update_calls em p)⟩ := by
    intro n
    induction n with
    | zero => rfl
    | succ n ih => simp only [UpdateAllEntities_repeat, hfix, ih]
  refine ⟨_, _, UpdateAllEntities_resolved em w p hwf hp, rfl, hfix, ?_, ?_⟩
  · intro n
    simp only [UpdateAllEntities_repeat, UpdateAllEntities_resolved em w p hwf hp, hrep n]
  · intro entity
    by_cases hmem : entity ∈ entities w.component_data_
    · obtain ⟨c, hc, rfl⟩ := List.mem_map.mp hmem
      rw [calls_for_flatMap_of_mem _ (update_calls_target em p) _ c hwf hc]
      exact update_calls_count em p c
    · rw [calls_for_flatMap_of_not_mem _ (update_calls_target em p) _ entity hmem]
      simp

theorem C3_update_is_idempotent_witness :
    ∃ w1 made, UpdateAllEntities (em_at f_half) demo_world = some w1 ∧
      w1.calls = demo_world.calls ++ made ∧
      UpdateAllEntities (em_at f_half) w1 = some w1 ∧
      (∀ n, UpdateAllEntities_repeat (em_at f_half) (n + 1) demo_world = some w1) ∧
      (∀ entity, (calls_for entity made).countP is_visibility_call ≤ 1 ∧
        (calls_for entity made).countP is_physics_call ≤ 1) :=
  C3_update_is_idempotent (em_at f_half) demo_world f_half (by decide) ⟨0, rfl, rfl⟩

/-- C4: with a resolved carrier at progress `p` and both sinks present, the calls
one update makes are, record by record in iteration order: nothing for a record
whose flag does not change, `SetVisibilityRecursively(e, true)` then
`EnablePhysics(e)` for a record that goes from inactive to active, and
`SetVisibilityRecursively(e, false)` then `DisablePhysics(e)` for a record that
goes from active to inactive; the trace grows by exactly these calls. -/
theorem C4_update_calls_on_transitions_in_order (em : EntityManager) (w : World) (p : F32)
    (hwf : WellFormed w.component_data_) (hp : ResolvedCarrier em p)
    (hv : em.render_mesh = true) (hph : em.physics = true) :
    ∃ w1, UpdateAllEntities em w = some w1 ∧
      w1.component_data_ = w.component_data_.map (fun c =>
        { c with data := { c.data with
            currently_active := F32.ge p c.data.min_lap && F32.le p c.data.max_lap } }) ∧
      w1.calls = w.calls ++ w.component_data_.flatMap (fun c =>
        match c.data.currently_active,
          (F32.ge p c.data.min_lap && F32.le p c.data.max_lap) with
        | false, true =>
          [SinkCall.SetVisibilityRecursively c.entity true, SinkCall.EnablePhysics c.entity]
        | true, false =>
          [SinkCall.SetVisibilityRecursively c.entity false, SinkCall.DisablePhysics c.entity]
        | _, _ => []) := by
  refine ⟨_, UpdateAllEntities_resolved em w p hwf hp, rfl, ?_⟩
  show w.calls ++ _ = w.calls ++ _
  congr 1
  congr 1
  funext c
  unfold update_calls sink_calls in_lap_range
  cases c.data.currently_active <;>
    cases (F32.ge p c.data.min_lap && F32.le p c.data.max_lap) <;> simp [hv, hph]

theorem C4_update_calls_on_transitions_in_order_witness :
    ∃ w1, UpdateAllEntities (em_at f_half) demo_world = some w1 ∧
      w1.component_data_ = demo_world.component_data_.map (fun c =>
        { c with data := { c.data with
            currently_active := F32.ge f_half c.data.min_lap && F32.le f_half c.data.max_lap } }) ∧
      w1.calls = demo_world.calls ++ demo_world.component_data_.flatMap (fun c =>
        match c.data.currently_active,
          (F32.ge f_half c.data.min_lap && F32.le f_half c.data.max_lap) with
        | false, true =>
          [SinkCall.SetVisibilityRecursively c.entity true, SinkCall.EnablePhysics c.entity]
        | true, false =>
          [SinkCall.SetVisibilityRecursively c.entity false, SinkCall.DisablePhysics c.entity]
        | _, _ => []) :=
  C4_update_calls_on_transitions_in_order (em_at f_half) demo_world f_half
    (by decide) ⟨0, rfl, rfl⟩ rfl rfl

/-! ## The bulk operations of the editor -/

/-- C9, as stated, fails: with a raft reference that is not valid the update
leaves `demo_world` as it is (entity `1` stays active although its window
`[1.0, 2.0]` does not contain `0.0`, entity `2` stays inactive although its
window `[-1.0, 1.0]` does, and no call is made), whereas an update at progress
`0.0` with the same sinks switches entity `1` off and entity `2` on. -/
theorem C9_unresolved_raft_is_not_progress_zero :
    UpdateAllEntities em_no_raft demo_world = some demo_world ∧
    UpdateAllEntities (em_at F32.zero) demo_world =
      some ⟨[⟨1, ⟨f_one, f_two, false⟩⟩, ⟨2, ⟨f_neg_one, f_one, true⟩⟩,
             ⟨3, ⟨f_half, f_two_half, false⟩⟩],
        [SinkCall.SetVisibilityRecursively 1 false, SinkCall.DisablePhysics 1,
         SinkCall.SetVisibilityRecursively 2 true, SinkCall.EnablePhysics 2]⟩ ∧
    UpdateAllEntities em_no_raft demo_world ≠ UpdateAllEntities (em_at F32.zero) demo_world := by
  decide

/-- C9, amended: when the raft reference is not valid, `UpdateAllEntities`
returns at once: every record keeps its flag and no sink call is made. -/
theorem C9_unresolved_raft_returns_at_once (em : EntityManager) (w : World)
    (hraft : em.raft_entity = none) : UpdateAllEntities em w = some w := by
  simp [UpdateAllEntities, hraft]

theorem C9_unresolved_raft_returns_at_once_witness :
    UpdateAllEntities em_no_raft demo_world = some demo_world :=
  C9_unresolved_raft_returns_at_once em_no_raft demo_world rfl

/-- C10: when the raft reference is valid but the raft has no rail-denizen data,
`UpdateAllEntities` returns and yields exactly the records and the trace of an
update whose carrier resolves at progress `0.0f` with the same sinks. -/
theorem C10_raft_without_rail_denizen_is_progress_zero (em em0 : EntityManager) (w : World)
    (raft : EntityRef) (hwf : WellFormed w.component_data_)
    (hraft : em.raft_entity = some raft) (hrail : em.rail_denizen raft = none)
    (h0 : ResolvedCarrier em0 F32.zero)
    (hv : em0.render_mesh = em.render_mesh) (hph : em0.physics = em.physics) :
    ∃ w1, UpdateAllEntities em w = some w1 ∧ UpdateAllEntities em0 w = some w1 := by
  have hcalls : update_calls em0 F32.zero = update_calls em F32.zero := by
    funext c
    simp [update_calls, sink_calls, hv, hph]
  have h := UpdateAllEntities_loop_spec em F32.zero w.component_data_ [] w.calls
    (by simpa using hwf)
  simp only [List.nil_append] at h
  refine ⟨⟨w.component_data_.map (retarget F32.zero),
    w.calls ++ w.component_data_.flatMap (update_calls em F32.zero)⟩, ?_, ?_⟩
  · simp only [UpdateAllEntities, hraft, hrail]
    exact h
  · rw [UpdateAllEntities_resolved em0 w F32.zero hwf h0, hcalls]

theorem C10_raft_without_rail_denizen_is_progress_zero_witness :
    ∃ w1, UpdateAllEntities em_no_rail demo_world = some w1 ∧
      UpdateAllEntities (em_at F32.zero) demo_world = some w1 :=
  C10_raft_without_rail_denizen_is_progress_zero em_no_rail (em_at F32.zero) demo_world 0
    (by decide) rfl rfl ⟨0, rfl, rfl⟩ rfl rfl

/-! ## Sink presence -/

theorem sink_calls_absent (em : EntityManager) (e : EntityRef) (b : Bool) :
    sink_calls (with_sinks em false false) e b = [] := rfl

theorem F32.not_in_lap_range_of_gt (p : F32) (data : LapDependentData)
    (h : F32.gt data.min_lap data.max_lap = true) : in_lap_range p data = false := by
  simp only [in_lap_range, F32.gt, F32.lt, F32.le, F32.ge, Bool.and_eq_true,
    Bool.not_eq_true', decide_eq_true_eq, Bool.and_eq_false_imp, decide_eq_false_iff_not] at *
  intro _ _
  omega

theorem update_calls_off_only (em : EntityManager) (p : F32) (c : ComponentData)
    (h : in_lap_range p c.data = false) :
    SinkCall.SetVisibilityRecursively c.entity true ∉ update_calls em p c ∧
    SinkCall.EnablePhysics c.entity ∉ update_calls em p c := by
  unfold update_calls sink_calls
  rw [h]
  cases c.data.currently_active <;> cases em.render_mesh <;> cases em.physics <;> simp

theorem mem_calls_for (e : EntityRef) (k : SinkCall) (calls : List SinkCall)
    (hk : k ∈ calls) (ht : k.target = e) : k ∈ calls_for e calls := by
  simp only [calls_for, List.mem_filter, decide_eq_true_eq]
  exact ⟨hk, ht⟩

/-- C12: for a record whose bounds satisfy `min_lap > max_lap`, an update with a
resolved carrier at any progress `p` leaves the entity inactive, whatever its
flag was before, and makes neither the call `SetVisibilityRecursively(e, true)`
nor the call `EnablePhysics(e)` for it. -/
theorem C12_malformed_window_is_never_active (em : EntityManager) (w : World)
    (c : ComponentData) (p : F32)
    (hwf : WellFormed w.component_data_) (hc : c ∈ w.component_data_)
    (hbad : F32.gt c.data.min_lap c.data.max_lap = true) (hp : ResolvedCarrier em p) :
    ∃ w1 made, UpdateAllEntities em w = some w1 ∧ w1.calls = w.calls ++ made ∧
      active_flag w1 c.entity = some false ∧
      SinkCall.SetVisibilityRecursively c.entity true ∉ made ∧
      SinkCall.EnablePhysics c.entity ∉ made := by
  have hr := F32.not_in_lap_range_of_gt p c.data hbad
  have hcf := calls_for_flatMap_of_mem _ (update_calls_target em p) _ c hwf hc
  have hoff := update_calls_off_only em p c hr
  refine ⟨_, _, UpdateAllEntities_resolved em w p hwf hp, rfl, ?_, ?_, ?_⟩
  · rw [active_flag_retarget p _ _ c hwf hc, hr]
  · intro hmem
    have := mem_calls_for c.entity _ _ hmem rfl
    rw [hcf] at this
    exact hoff.1 this
  · intro hmem
    have := mem_calls_for c.entity _ _ hmem rfl
    rw [hcf] at this
    exact hoff.2 this

theorem C12_malformed_window_is_never_active_witness :
    ∃ w1 made, UpdateAllEntities (em_at f_one_half) malformed_world = some w1 ∧
      w1.calls = malformed_world.calls ++ made ∧
      active_flag w1 7 = some false ∧
      SinkCall.SetVisibilityRecursively 7 true ∉ made ∧
      SinkCall.EnablePhysics 7 ∉ made :=
  C12_malformed_window_is_never_active (em_at f_one_half) malformed_world
    ⟨7, ⟨f_two, f_one, true⟩⟩ f_one_half (by decide) (by decide) (by decide) ⟨0, rfl, rfl⟩

/-- C13: the example scenario, with both sinks present, on the one record of
entity `5` with window `[1.0, 2.0]`, inactive at first.  Each step starts from
the records the previous step left, with an empty trace, so that the trace
after the step is the list of calls of that step: the update at `0.5` leaves it
inactive without a call; the update at `1.2` activates it with one visibility-on
and one physics-enable call; the update at `1.5` leaves it active without a
call; the update at `2.5` deactivates it with one visibility-off and one
physics-disable call; `ActivateAllEntities` activates it again with one
visibility-on and one physics-enable call; the next update at `2.5` deactivates
it with one visibility-off and one physics-disable call. -/
theorem C13_example_scenario :
    UpdateAllEntities (em_at f_half) ⟨[scenario_record false], []⟩ =
      some ⟨[scenario_record false], []⟩ ∧
    UpdateAllEntities (em_at f_one_fifth) ⟨[scenario_record false], []⟩ =
      some ⟨[scenario_record true],
        [SinkCall.SetVisibilityRecursively 5 true, SinkCall.EnablePhysics 5]⟩ ∧
    UpdateAllEntities (em_at f_one_half) ⟨[scenario_record true], []⟩ =
      some ⟨[scenario_record true], []⟩ ∧
    UpdateAllEntities (em_at f_two_half) ⟨[scenario_record true], []⟩ =
      some ⟨[scenario_record false],
        [SinkCall.SetVisibilityRecursively 5 false, SinkCall.DisablePhysics 5]⟩ ∧
    ActivateAllEntities (em_at f_two_half) ⟨[scenario_record false], []⟩ =
      ⟨[scenario_record true],
        [SinkCall.SetVisibilityRecursively 5 true, SinkCall.EnablePhysics 5]⟩ ∧
    UpdateAllEntities (em_at f_two_half) ⟨[scenario_record true], []⟩ =
      some ⟨[scenario_record false],
        [SinkCall.SetVisibilityRecursively 5 false, SinkCall.DisablePhysics 5]⟩ := by
  decide

/-- C14: the flag of an entity after an update at progress `p` and the calls
made for it during that update are the same in any two stores that hold the
entity's record, whatever the other records of the two stores are: the flag is
the window test of the record's own bounds, and the record's data after the
update agree as well. -/
theorem C14_entities_are_independent (em : EntityManager) (w w2 : World)
    (c : ComponentData) (p : F32)
    (hwf : WellFormed w.component_data_) (hwf2 : WellFormed w2.component_data_)
    (hc : c ∈ w.component_data_) (hc2 : c ∈ w2.component_data_)
    (hp : ResolvedCarrier em p) :
    ∃ w1 w3 made made2, UpdateAllEntities em w = some w1 ∧
      UpdateAllEntities em w2 = some w3 ∧
      w1.calls = w.calls ++ made ∧ w3.calls = w2.calls ++ made2 ∧
      active_flag w1 c.entity =
        some (F32.ge p c.data.min_lap && F32.le p c.data.max_lap) ∧
      active_flag w3 c.entity = active_flag w1 c.entity ∧
      GetComponentData w3.component_data_ c.entity =
        GetComponentData w1.component_data_ c.entity ∧
      calls_for c.entity made2 = calls_for c.entity made := by
  refine ⟨_, _, _, _, UpdateAllEntities_resolved em w p hwf hp,
    UpdateAllEntities_resolved em w2 p hwf2 hp, rfl, rfl, ?_, ?_, ?_, ?_⟩
  · rw [active_flag_retarget p _ _ c hwf hc]
    rfl
  · rw [active_flag_retarget p _ _ c hwf hc, active_flag_retarget p _ _ c hwf2 hc2]
  · have h1 := GetComponentData_map_with_active (fun x => in_lap_range p x.data) _ c hwf hc
    have h2 := GetComponentData_map_with_active (fun x => in_lap_range p x.data) _ c hwf2 hc2
    exact h2.trans h1.symm
  · rw [calls_for_flatMap_of_mem _ (update_calls_target em p) _ c hwf hc,
      calls_for_flatMap_of_mem _ (update_calls_target em p) _ c hwf2 hc2]

theorem C14_entities_are_independent_witness :
    ∃ w1 w3 made made2, UpdateAllEntities (em_at f_one) demo_world = some w1 ∧
      UpdateAllEntities (em_at f_one) other_world = some w3 ∧
      w1.calls = demo_world.calls ++ made ∧ w3.calls = other_world.calls ++ made2 ∧
      active_flag w1 3 = some (F32.ge f_one f_half && F32.le f_one f_two_half) ∧
      active_flag w3 3 = active_flag w1 3 ∧
      GetComponentData w3.component_data_ 3 = GetComponentData w1.component_data_ 3 ∧
      calls_for 3 made2 = calls_for 3 made :=
  C14_entities_are_independent (em_at f_one) demo_world other_world
    ⟨3, ⟨f_half, f_two_half, false⟩⟩ f_one (by decide) (by decide) (by decide) (by decide)
    ⟨0, rfl, rfl⟩

/-! ## Loading and exporting -/

theorem GetComponentData_eq_none_iff (cs : List ComponentData) (e : EntityRef) :
    GetComponentData cs e = none ↔ e ∉ entities cs := by
  induction cs with
  | nil => simp [GetComponentData, entities]
  | cons x xs ih =>
    by_cases hx : x.entity = e
    · simp [GetComponentData, entities, hx]
    · have hne : ¬ e = x.entity := fun h => hx h.symm
      simp only [GetComponentData, hx, if_false, ih, entities, List.map_cons, List.mem_cons,
        hne, false_or]

theorem set_min_lap_append_cons (pre suf : List ComponentData) (c : ComponentData)
    (x : F32) (h : c.entity ∉ entities pre) :
    set_min_lap (pre ++ c :: suf) c.entity x =
      pre ++ { c with data := { c.data with min_lap := x } } :: suf := by
  induction pre with
  | nil => simp [set_min_lap]
  | cons y ys ih =>
    have hy : y.entity ≠ c.entity := by
      intro hyc
      exact h (by simp [entities, hyc])
    have hys : c.entity ∉ entities ys := by
      intro hm
      exact h (by simp only [entities, List.map_cons, List.mem_cons]; exact Or.inr hm)
    simp [set_min_lap, hy, ih hys]

theorem set_max_lap_append_cons (pre suf : List ComponentData) (c : ComponentData)
    (x : F32) (h : c.entity ∉ entities pre) :
    set_max_lap (pre ++ c :: suf) c.entity x =
      pre ++ { c with data := { c.data with max_lap := x } } :: suf := by
  induction pre with
  | nil => simp [set_max_lap]
  | cons y ys ih =>
    have hy : y.entity ≠ c.entity := by
      intro hyc
      exact h (by simp [entities, hyc])
    have hys : c.entity ∉ entities ys := by
      intro hm
      exact h (by simp only [entities, List.map_cons, List.mem_cons]; exact Or.inr hm)
    simp [set_max_lap, hy, ih hys]

/-- Loading a record for an entity without data appends one record that holds
the two bounds and a cleared flag. -/
theorem AddFromRawData_new (cs : List ComponentData) (entity : EntityRef)
    (raw : LapDependentDef) (hnew : GetComponentData cs entity = none) :
    AddFromRawData cs entity raw =
      some (cs ++ [⟨entity, ⟨raw.min_lap, raw.max_lap, false⟩⟩]) := by
  have hne : entity ∉ entities cs := (GetComponentData_eq_none_iff cs entity).mp hnew
  have h1 := set_min_lap_append_cons cs [] ⟨entity, ⟨F32.zero, F32.zero, false⟩⟩
    raw.min_lap hne
  have h2 := set_max_lap_append_cons cs [] ⟨entity, ⟨raw.min_lap, F32.zero, false⟩⟩
    raw.max_lap hne
  simp only [AddFromRawData, AddEntity, hnew]
  simp only at h1 h2
  rw [h1, h2]

/-- C15: `ExportRawData` returns the null result exactly for the entities that
have no record in the store, and a record, made of the two bounds of the
entity's data, exactly for the entities that have one; it never faults. -/
theorem C15_export_of_unregistered_entity_is_null (cs : List ComponentData)
    (entity : EntityRef) :
    ExportRawData cs entity =
      (GetComponentData cs entity).map (fun data => ⟨data.min_lap, data.max_lap⟩) ∧
    (entity ∉ entities cs ↔ ExportRawData cs entity = none) ∧
    (entity ∈ entities cs ↔ ∃ r, ExportRawData cs entity = some r) := by
  have hiff := GetComponentData_eq_none_iff cs entity
  cases hg : GetComponentData cs entity with
  | none =>
    have hne : entity ∉ entities cs := hiff.mp hg
    simp [ExportRawData, hg, hne]
  | some data =>
    have hmem : entity ∈ entities cs := by
      by_contra hcon
      rw [hiff.mpr hcon] at hg
      cases hg
    simp [ExportRawData, hg, hmem]

/-- C16: loading a record for an entity that has no data yet, exporting that
entity and loading the exported record into an empty store yields data with the
same `min_lap` and `max_lap`; the exported record consists of these two values
and stays the same whatever the entity's `currently_active` flag is set to. -/
theorem C16_configuration_round_trip (cs : List ComponentData) (entity entity2 : EntityRef)
    (raw : LapDependentDef) (hnew : GetComponentData cs entity = none) :
    ∃ cs1 exported cs2 data2, AddFromRawData cs entity raw = some cs1 ∧
      ExportRawData cs1 entity = some exported ∧
      exported = ⟨raw.min_lap, raw.max_lap⟩ ∧
      (∀ b, ExportRawData (set_currently_active cs1 entity b) entity = some exported) ∧
      AddFromRawData [] entity2 exported = some cs2 ∧
      GetComponentData cs2 entity2 = some data2 ∧
      data2.min_lap = raw.min_lap ∧ data2.max_lap = raw.max_lap := by
  have hne : entity ∉ entities cs := (GetComponentData_eq_none_iff cs entity).mp hnew
  have hget := GetComponentData_append_cons cs []
    ⟨entity, ⟨raw.min_lap, raw.max_lap, false⟩⟩ hne
  refine ⟨_, ⟨raw.min_lap, raw.max_lap⟩, _, ⟨raw.min_lap, raw.max_lap, false⟩,
    AddFromRawData_new cs entity raw hnew, ?_, rfl, ?_,
    AddFromRawData_new [] entity2 ⟨raw.min_lap, raw.max_lap⟩ rfl, ?_, rfl, rfl⟩
  · simp only at hget
    simp only [ExportRawData, hget]
  · intro b
    have hset := set_currently_active_append_cons cs []
      ⟨entity, ⟨raw.min_lap, raw.max_lap, false⟩⟩ b hne
    have hget2 : GetComponentData
        (cs ++ [with_active b ⟨entity, ⟨raw.min_lap, raw.max_lap, false⟩⟩]) entity =
        some ⟨raw.min_lap, raw.max_lap, b⟩ :=
      GetComponentData_append_cons cs []
        (with_active b ⟨entity, ⟨raw.min_lap, raw.max_lap, false⟩⟩) hne
    simp only at hset
    rw [hset]
    simp only [ExportRawData, hget2]
  · simp [GetComponentData]

theorem C16_configuration_round_trip_witness :
    ∃ cs1 exported cs2 data2,
      AddFromRawData demo_world.component_data_ 4 ⟨f_neg_one, f_two_half⟩ = some cs1 ∧
      ExportRawData cs1 4 = some exported ∧
      exported = ⟨f_neg_one, f_two_half⟩ ∧
      (∀ b, ExportRawData (set_currently_active cs1 4 b) 4 = some exported) ∧
      AddFromRawData [] 6 exported = some cs2 ∧
      GetComponentData cs2 6 = some data2 ∧
      data2.min_lap = f_neg_one ∧ data2.max_lap = f_two_half :=
  C16_configuration_round_trip demo_world.component_data_ 4 6 ⟨f_neg_one, f_two_half⟩
    (by decide)

/-- C17: for an entity that has no data yet, `AddFromRawData` registers one new
record, after the existing ones, with `currently_active = false` and with
`min_lap` and `max_lap` equal to the values of the loaded record. -/
theorem C17_loaded_entity_starts_inactive (cs : List ComponentData) (entity : EntityRef)
    (raw : LapDependentDef) (hnew : GetComponentData cs entity = none) :
    ∃ cs1, AddFromRawData cs entity raw = some cs1 ∧
      cs1 = cs ++ [⟨entity, ⟨raw.min_lap, raw.max_lap, false⟩⟩] ∧
      GetComponentData cs1 entity = some ⟨raw.min_lap, raw.max_lap, false⟩ := by
  have hne : entity ∉ entities cs := (GetComponentData_eq_none_iff cs entity).mp hnew
  have hget := GetComponentData_append_cons cs []
    ⟨entity, ⟨raw.min_lap, raw.max_lap, false⟩⟩ hne
  exact ⟨_, AddFromRawData_new cs entity raw hnew, rfl, hget⟩

theorem C17_loaded_entity_starts_inactive_witness :
    ∃ cs1, AddFromRawData demo_world.component_data_ 4 ⟨f_one, f_two⟩ = some cs1 ∧
      cs1 = demo_world.component_data_ ++ [⟨4, ⟨f_one, f_two, false⟩⟩] ∧
      GetComponentData cs1 4 = some ⟨f_one, f_two, false⟩ :=
  C17_loaded_entity_starts_inactive demo_world.component_data_ 4 ⟨f_one, f_two⟩ (by decide)

/-! ## The editor callbacks -/

/-- C18: `Init` leaves the records and the trace of sink calls as they are; with
Scene Lab present it registers exactly one more on-enter-editor callback, which
runs `ActivateAllEntities`, and exactly one more on-exit-editor callback, which
runs `DeactivateAllEntities`; with Scene Lab absent it registers nothing. -/
theorem C18_init_wires_the_editor_callbacks (em : EntityManager) (lab : SceneLab)
    (w : World) :
    (Init em lab w).2 = w ∧
    (Init em lab w).1.on_enter_editor = lab.on_enter_editor ++
      (if em.scene_lab then [fun em1 w1 => ActivateAllEntities em1 w1] else []) ∧
    (Init em lab w).1.on_exit_editor = lab.on_exit_editor ++
      (if em.scene_lab then [fun em1 w1 => DeactivateAllEntities em1 w1] else []) := by
  unfold Init
  cases em.scene_lab <;> simp

/-! ## Frame -/

theorem configuration_map_with_active (f : ComponentData → Bool) (cs : List ComponentData) :
    configuration (cs.map (fun c => with_active (f c) c)) = configuration cs := by
  simp [configuration, with_active, Function.comp_def]

/-- Whatever the raft is, `UpdateAllEntities` returns on a well-formed store:
either nothing changed, or every record was retargeted at one progress value. -/
theorem UpdateAllEntities_total (em : EntityManager) (w : World)
    (hwf : WellFormed w.component_data_) :
    ∃ w1, UpdateAllEntities em w = some w1 ∧
      (w1 = w ∨ ∃ p, w1 = ⟨w.component_data_.map (retarget p),
        w.calls ++ w.component_data_.flatMap (update_calls em p)⟩) := by
  cases hraft : em.raft_entity with
  | none => exact ⟨w, by simp [UpdateAllEntities, hraft], Or.inl rfl⟩
  | some raft =>
    cases hrail : em.rail_denizen raft with
    | none =>
      have h := UpdateAllEntities_loop_spec em F32.zero w.component_data_ [] w.calls
        (by simpa using hwf)
      simp only [List.nil_append] at h
      refine ⟨_, ?_, Or.inr ⟨F32.zero, rfl⟩⟩
      simp only [UpdateAllEntities, hraft, hrail]
      exact h
    | some d =>
      exact ⟨_, UpdateAllEntities_resolved em w d.total_lap_progress hwf ⟨raft, hraft, hrail⟩,
        Or.inr ⟨_, rfl⟩⟩

/-- C19: `UpdateAllEntities` (whatever the raft and the sinks are),
`ActivateAllEntities` and `DeactivateAllEntities` keep the list of records as it
is up to the flags: the same number of records, in the same order, each with its
entity, `min_lap` and `max_lap` unchanged. -/
theorem C19_operations_change_flags_only (em : EntityManager) (w : World)
    (hwf : WellFormed w.component_data_) :
    (∃ w1, UpdateAllEntities em w = some w1 ∧
      w1.component_data_.map (fun c => (c.entity, c.data.min_lap, c.data.max_lap)) =
        w.component_data_.map (fun c => (c.entity, c.data.min_lap, c.data.max_lap))) ∧
    (ActivateAllEntities em w).component_data_.map
        (fun c => (c.entity, c.data.min_lap, c.data.max_lap)) =
      w.component_data_.map (fun c => (c.entity, c.data.min_lap, c.data.max_lap)) ∧
    (DeactivateAllEntities em w).component_data_.map
        (fun c => (c.entity, c.data.min_lap, c.data.max_lap)) =
      w.component_data_.map (fun c => (c.entity, c.data.min_lap, c.data.max_lap)) := by
  refine ⟨?_, ?_, ?_⟩
  · obtain ⟨w1, h1, hcase⟩ := UpdateAllEntities_total em w hwf
    refine ⟨w1, h1, ?_⟩
    rcases hcase with rfl | ⟨p, rfl⟩
    · rfl
    · exact configuration_map_with_active (fun x => in_lap_range p x.data) _
  · rw [ActivateAllEntities_eq em w hwf]
    exact configuration_map_with_active (fun _ => true) _
  · rw [DeactivateAllEntities_eq em w hwf]
    exact configuration_map_with_active (fun _ => false) _

theorem C19_operations_change_flags_only_witness :
    (∃ w1, UpdateAllEntities (em_at f_half) demo_world = some w1 ∧
      w1.component_data_.map (fun c => (c.entity, c.data.min_lap, c.data.max_lap)) =
        demo_world.component_data_.map
          (fun c => (c.entity, c.data.min_lap, c.data.max_lap))) ∧
    (ActivateAllEntities (em_at f_half) demo_world).component_data_.map
        (fun c => (c.entity, c.data.min_lap, c.data.max_lap)) =
      demo_world.component_data_.map
        (fun c => (c.entity, c.data.min_lap, c.data.max_lap)) ∧
    (DeactivateAllEntities (em_at f_half) demo_world).component_data_.map
        (fun c => (c.entity, c.data.min_lap, c.data.max_lap)) =
      demo_world.component_data_.map
        (fun c => (c.entity, c.data.min_lap, c.data.max_lap)) :=
  C19_operations_change_flags_only (em_at f_half) demo_world (by decide)

/-! ## The sinks and the flags -/

theorem apply_calls_cons (s : Sinks) (k : SinkCall) (ks : List SinkCall) :
    s.apply_calls (k :: ks) = (s.apply_call k).apply_calls ks := rfl

theorem apply_call_below (s : Sinks) (k : SinkCall) : (s.apply_call k).below = s.below := by
  cases k <;> rfl

theorem apply_calls_below (ks : List SinkCall) :
    ∀ s : Sinks, (s.apply_calls ks).below = s.below := by
  induction ks with
  | nil => exact fun s => rfl
  | cons k ks ih =>
    intro s
    rw [apply_calls_cons, ih, apply_call_below]

/-- What the sinks hold for `e` after a trace only depends on what they held
for `e` before and on the hierarchy. -/
theorem apply_calls_congr (e : EntityRef) (ks : List SinkCall) :
    ∀ s t : Sinks, s.below = t.below → s.visible e = t.visible e →
      s.physics_enabled e = t.physics_enabled e →
      (s.apply_calls ks).visible e = (t.apply_calls ks).visible e ∧
      (s.apply_calls ks).physics_enabled e = (t.apply_calls ks).physics_enabled e := by
  induction ks with
  | nil => exact fun s t _ hv hp => ⟨hv, hp⟩
  | cons k ks ih =>
    intro s t hb hv hp
    rw [apply_calls_cons, apply_calls_cons]
    apply ih
    · rw [apply_call_below, apply_call_below, hb]
    · cases k <;> simp [Sinks.apply_call, hv, hb]
    · cases k <;> simp [Sinks.apply_call, hp]

/-- Calls about entities that are neither `e` nor above `e` do not matter for
`e`. -/
theorem apply_calls_calls_for (e : EntityRef) (ks : List SinkCall) :
    ∀ s : Sinks, (∀ k ∈ ks, k.target ≠ e → s.below k.target e = false) →
      (s.apply_calls ks).visible e = (s.apply_calls (calls_for e ks)).visible e ∧
      (s.apply_calls ks).physics_enabled e =
        (s.apply_calls (calls_for e ks)).physics_enabled e := by
  induction ks with
  | nil => exact fun s _ => ⟨rfl, rfl⟩
  | cons k ks ih =>
    intro s hfree
    have hfree2 : ∀ k2 ∈ ks, k2.target ≠ e → (s.apply_call k).below k2.target e = false := by
      intro k2 hk2 hne
      rw [apply_call_below]
      exact hfree k2 (List.mem_cons_of_mem _ hk2) hne
    by_cases hk : k.target = e
    · have hcf : calls_for e (k :: ks) = k :: calls_for e ks := by
        simp [calls_for, hk]
      rw [hcf, apply_calls_cons, apply_calls_cons]
      exact ih _ hfree2
    · have hcf : calls_for e (k :: ks) = calls_for e ks := by
        simp [calls_for, hk]
      rw [hcf, apply_calls_cons]
      have hne : ¬ e = k.target := fun h => hk h.symm
      have hb : s.below k.target e = false := hfree k (List.mem_cons_self _ _) hk
      have hsame : (s.apply_call k).visible e = s.visible e ∧
          (s.apply_call k).physics_enabled e = s.physics_enabled e := by
        cases k <;> simp [Sinks.apply_call, SinkCall.target] at hne hb ⊢ <;> simp [hne, hb]
      have h1 := ih (s.apply_call k) hfree2
      have h2 := apply_calls_congr e (calls_for e ks) (s.apply_call k) s
        (apply_call_below s k) hsame.1 hsame.2
      exact ⟨h1.1.trans h2.1, h1.2.trans h2.2⟩

theorem apply_sink_calls_both (s : Sinks) (q : F32) (e : EntityRef) (b : Bool) :
    (s.apply_calls (sink_calls (em_at q) e b)).visible e = b ∧
    (s.apply_calls (sink_calls (em_at q) e b)).physics_enabled e = b := by
  cases b <;> simp [sink_calls, em_at, Sinks.apply_calls, Sinks.apply_call]

theorem target_mem_entities_of_flatMap (f : ComponentData → List SinkCall)
    (hf : ∀ x, ∀ k ∈ f x, k.target = x.entity) (cs : List ComponentData) :
    ∀ k ∈ cs.flatMap f, k.target ∈ entities cs := by
  intro k hk
  obtain ⟨c, hc, hkc⟩ := List.mem_flatMap.mp hk
  rw [hf c k hkc]
  exact List.mem_map_of_mem (fun c => c.entity) hc

/-- If no record's entity lies below another one's, all calls are about
entities of the store and, for every record, the trace either holds no call for
the entity and leaves the flag alone, or holds the switching calls for the new
flag, then the sinks still agree with the flags afterwards. -/
theorem consistent_map (cs : List ComponentData) (s : Sinks) (g : ComponentData → Bool)
    (q : F32) (calls : List SinkCall)
    (hcons : Scene.consistent ⟨cs, s⟩) (hfree : Scene.nesting_free ⟨cs, s⟩)
    (htargets : ∀ k ∈ calls, k.target ∈ entities cs)
    (h : ∀ c ∈ cs, (calls_for c.entity calls = [] ∧ g c = c.data.currently_active) ∨
      calls_for c.entity calls = sink_calls (em_at q) c.entity (g c)) :
    Scene.consistent ⟨cs.map (fun c => with_active (g c) c), s.apply_calls calls⟩ := by
  intro x hx
  obtain ⟨c, hc, rfl⟩ := List.mem_map.mp hx
  have hB := apply_calls_calls_for c.entity calls s (fun k hk hne =>
    hfree k.target (htargets k hk) c.entity (List.mem_map_of_mem (fun c => c.entity) hc) hne)
  have hold := hcons c hc
  show (s.apply_calls calls).visible c.entity = g c ∧
    (s.apply_calls calls).physics_enabled c.entity = g c
  rw [hB.1, hB.2]
  rcases h c hc with ⟨hnil, hg⟩ | hsw
  · rw [hnil, hg]
    exact hold
  · rw [hsw]
    exact apply_sink_calls_both s q c.entity (g c)

theorem consistent_switch (pre suf : List ComponentData) (c : ComponentData) (s : Sinks)
    (q : F32) (b : Bool) (hwf : WellFormed (pre ++ c :: suf))
    (hfree : Scene.nesting_free ⟨pre ++ c :: suf, s⟩)
    (hcons : Scene.consistent ⟨pre ++ c :: suf, s⟩) :
    Scene.consistent ⟨pre ++ with_active b c :: suf,
      s.apply_calls (sink_calls (em_at q) c.entity b)⟩ := by
  have hnd : ∀ x, x ∈ pre ∨ x ∈ suf → x.entity ≠ c.entity := by
    intro x hx heq
    unfold WellFormed entities at hwf
    simp only [List.map_append, List.map_cons] at hwf
    rw [List.nodup_append] at hwf
    rcases hx with hx | hx
    · exact hwf.2.2 (List.mem_map_of_mem (fun c => c.entity) hx)
        (by rw [heq]; exact List.mem_cons_self _ _)
    · have h2 := (List.nodup_cons.mp hwf.2.1).1
      exact h2 (by rw [← heq]; exact List.mem_map_of_mem (fun c => c.entity) hx)
  have hcmem : c.entity ∈ entities (pre ++ c :: suf) :=
    List.mem_map_of_mem (fun (x : ComponentData) => x.entity)
      (List.mem_append_right pre (List.mem_cons_self c suf))
  have hother : ∀ y, (y ∈ pre ∨ y ∈ suf) →
      (s.apply_calls (sink_calls (em_at q) c.entity b)).visible y.entity =
        y.data.currently_active ∧
      (s.apply_calls (sink_calls (em_at q) c.entity b)).physics_enabled y.entity =
        y.data.currently_active := by
    intro y hy
    have hymem : y ∈ pre ++ c :: suf := by
      rcases hy with hy | hy
      · exact List.mem_append_left _ hy
      · exact List.mem_append_right _ (List.mem_cons_of_mem _ hy)
    have hB2 := apply_calls_calls_for y.entity (sink_calls (em_at q) c.entity b) s
      (fun k hk hne => by
        have ht := sink_calls_target (em_at q) c.entity b k hk
        rw [ht] at hne ⊢
        exact hfree c.entity hcmem y.entity
          (List.mem_map_of_mem (fun c => c.entity) hymem) hne)
    have hnil := calls_for_eq_nil y.entity c.entity _ (sink_calls_target (em_at q) c.entity b)
      (fun h => hnd y hy h.symm)
    rw [hB2.1, hB2.2, hnil]
    exact hcons y hymem
  intro x hx
  show (s.apply_calls _).visible x.entity = x.data.currently_active ∧
    (s.apply_calls _).physics_enabled x.entity = x.data.currently_active
  rcases List.mem_append.mp hx with hx1 | hx2
  · exact hother x (Or.inl hx1)
  · rcases List.mem_cons.mp hx2 with rfl | hx3
    · exact apply_sink_calls_both s q c.entity b
    · exact hother x (Or.inr hx3)

theorem entities_switch (pre suf : List ComponentData) (c : ComponentData) (b : Bool) :
    entities (pre ++ with_active b c :: suf) = entities (pre ++ c :: suf) := by
  simp [entities, with_active]

theorem nesting_free_of_eq (sys sys1 : Scene)
    (he : entities sys1.component_data_ = entities sys.component_data_)
    (hb : sys1.sinks.below = sys.sinks.below) (h : sys.nesting_free) : sys1.nesting_free := by
  unfold Scene.nesting_free at *
  rw [he, hb]
  exact h

/-- Switching one entity on or off with both sinks present keeps the entities
of the store and the agreement of the sinks with the flags, when no record's
entity lies below another one's. -/
theorem switch_entity_preserves (op : EntityManager → World → EntityRef → World)
    (b : Bool) (q : F32)
    (hop : ∀ (w : World) (e : EntityRef), GetComponentData w.component_data_ e = none →
      op (em_at q) w e = w)
    (hspec : ∀ (pre suf : List ComponentData) (c : ComponentData) (calls : List SinkCall),
      c.entity ∉ entities pre →
      op (em_at q) ⟨pre ++ c :: suf, calls⟩ c.entity =
        ⟨pre ++ with_active b c :: suf, calls ++ sink_calls (em_at q) c.entity b⟩)
    (sys : Scene) (e : EntityRef) (hwf : WellFormed sys.component_data_)
    (hfree : sys.nesting_free) (hcons : sys.consistent) :
    entities (op (em_at q) ⟨sys.component_data_, []⟩ e).component_data_ =
      entities sys.component_data_ ∧
    Scene.consistent ⟨(op (em_at q) ⟨sys.component_data_, []⟩ e).component_data_,
      sys.sinks.apply_calls (op (em_at q) ⟨sys.component_data_, []⟩ e).calls⟩ := by
  by_cases hmem : e ∈ entities sys.component_data_
  · obtain ⟨c, hc, rfl⟩ := List.mem_map.mp hmem
    obtain ⟨pre, suf, hsplit⟩ := List.append_of_mem hc
    rw [hsplit] at hwf
    have hpre := (wellFormed_split pre suf c hwf b).1
    have hcons2 : Scene.consistent ⟨pre ++ c :: suf, sys.sinks⟩ := by
      intro x hx
      exact hcons x (by rw [hsplit]; exact hx)
    have hfree2 : Scene.nesting_free ⟨pre ++ c :: suf, sys.sinks⟩ := by
      intro x hx y hy
      exact hfree x (by rw [hsplit]; exact hx) y (by rw [hsplit]; exact hy)
    rw [hsplit, hspec pre suf c [] hpre]
    exact ⟨entities_switch pre suf c b,
      consistent_switch pre suf c sys.sinks q b hwf hfree2 hcons2⟩
  · rw [hop _ e ((GetComponentData_eq_none_iff _ e).mpr hmem)]
    exact ⟨rfl, hcons⟩

/-- One operation, with both sinks present, returns and keeps the store
well-formed, the hierarchy free of nesting among the records, and the sinks in
agreement with the flags. -/
theorem Scene.apply_preserves (sys : Scene) (op : Operation)
    (hwf : WellFormed sys.component_data_) (hfree : sys.nesting_free)
    (hcons : sys.consistent) :
    ∃ sys1, sys.apply op = some sys1 ∧ WellFormed sys1.component_data_ ∧
      sys1.nesting_free ∧ sys1.consistent := by
  have key : ∀ sys1 : Scene, entities sys1.component_data_ = entities sys.component_data_ →
      sys1.sinks.below = sys.sinks.below → sys1.consistent →
      WellFormed sys1.component_data_ ∧ sys1.nesting_free ∧ sys1.consistent := by
    intro sys1 he hb hc1
    refine ⟨?_, nesting_free_of_eq sys sys1 he hb hfree, hc1⟩
    unfold WellFormed
    rw [he]
    exact hwf
  cases op with
  | Tick p =>
    have hres := UpdateAllEntities_resolved (em_at p) ⟨sys.component_data_, []⟩ p hwf
      ⟨0, rfl, rfl⟩
    have happ : sys.apply (Operation.Tick p) =
        some ⟨sys.component_data_.map (retarget p),
          sys.sinks.apply_calls ([] ++ sys.component_data_.flatMap (update_calls (em_at p) p))⟩ := by
      simp only [Scene.apply, hres]
    refine ⟨_, happ, key _ (entities_map_with_active (fun c => in_lap_range p c.data) _)
      (apply_calls_below _ _) ?_⟩
    apply consistent_map sys.component_data_ sys.sinks (fun c => in_lap_range p c.data) p _
      hcons hfree
    · simp only [List.nil_append]
      exact target_mem_entities_of_flatMap _ (update_calls_target (em_at p) p) _
    · intro c hc
      simp only [List.nil_append]
      rw [calls_for_flatMap_of_mem _ (update_calls_target (em_at p) p) _ c hwf hc]
      by_cases h : in_lap_range p c.data = c.data.currently_active
      · left
        exact ⟨by simp [update_calls, h], h⟩
      · right
        simp [update_calls, h]
  | ActivateAll =>
    have hres := ActivateAllEntities_eq (em_at F32.zero) ⟨sys.component_data_, []⟩ hwf
    have happ : sys.apply Operation.ActivateAll =
        some ⟨sys.component_data_.map (fun c => with_active true c),
          sys.sinks.apply_calls ([] ++ sys.component_data_.flatMap
            (fun c => sink_calls (em_at F32.zero) c.entity true))⟩ := by
      simp only [Scene.apply, hres]
    refine ⟨_, happ, key _ (entities_map_with_active (fun _ => true) _)
      (apply_calls_below _ _) ?_⟩
    apply consistent_map sys.component_data_ sys.sinks (fun _ => true) F32.zero _ hcons hfree
    · simp only [List.nil_append]
      exact target_mem_entities_of_flatMap _ (fun x => sink_calls_target _ x.entity true) _
    · intro c hc
      right
      simp only [List.nil_append]
      exact calls_for_flatMap_of_mem (fun c => sink_calls (em_at F32.zero) c.entity true)
        (fun x => sink_calls_target _ x.entity true) _ c hwf hc
  | DeactivateAll =>
    have hres := DeactivateAllEntities_eq (em_at F32.zero) ⟨sys.component_data_, []⟩ hwf
    have happ : sys.apply Operation.DeactivateAll =
        some ⟨sys.component_data_.map (fun c => with_active false c),
          sys.sinks.apply_calls ([] ++ sys.component_data_.flatMap
            (fun c => sink_calls (em_at F32.zero) c.entity false))⟩ := by
      simp only [Scene.apply, hres]
    refine ⟨_, happ, key _ (entities_map_with_active (fun _ => false) _)
      (apply_calls_below _ _) ?_⟩
    apply consistent_map sys.component_data_ sys.sinks (fun _ => false) F32.zero _ hcons hfree
    · simp only [List.nil_append]
      exact target_mem_entities_of_flatMap _ (fun x => sink_calls_target _ x.entity false) _
    · intro c hc
      right
      simp only [List.nil_append]
      exact calls_for_flatMap_of_mem (fun c => sink_calls (em_at F32.zero) c.entity false)
        (fun x => sink_calls_target _ x.entity false) _ c hwf hc
  | Activate e =>
    have h := switch_entity_preserves ActivateEntity true F32.zero
      (fun w e hn => by simp [ActivateEntity, hn])
      (fun pre suf c calls hc => ActivateEntity_spec (em_at F32.zero) pre suf c calls hc)
      sys e hwf hfree hcons
    exact ⟨_, rfl, key ⟨_, _⟩ h.1 (apply_calls_below _ _) h.2⟩
  | Deactivate e =>
    have h := switch_entity_preserves DeactivateEntity false F32.zero
      (fun w e hn => by simp [DeactivateEntity, hn])
      (fun pre suf c calls hc => DeactivateEntity_spec (em_at F32.zero) pre suf c calls hc)
      sys e hwf hfree hcons
    exact ⟨_, rfl, key ⟨_, _⟩ h.1 (apply_calls_below _ _) h.2⟩

/-- C20, as stated, fails: `SetVisibilityRecursively` also writes the entities
below its target.  In `nested_scene` the sinks agree with the flags of both
records; the update at progress `2.5` switches entity `1` off (its window is
`[1.0, 2.0]`), which hides entity `2` below it, while entity `2` (window
`[0.5, 2.5]`) stays `currently_active`: afterwards entity `2` is active but not
shown. -/
theorem C20_nested_entity_is_hidden_while_active :
    WellFormed nested_scene.component_data_ ∧ nested_scene.consistent ∧
    ∃ sys1, nested_scene.apply (Operation.Tick f_two_half) = some sys1 ∧
      GetComponentData sys1.component_data_ 2 = some ⟨f_half, f_two_half, true⟩ ∧
      sys1.sinks.visible 2 = false ∧ ¬ sys1.consistent :=
  ⟨by decide, by decide, _, rfl, by decide, by decide, by decide⟩

/-- C20, amended: with both sinks present, and as long as no record's entity lies
below the entity of another record in the render hierarchy, every operation (the
update at any progress, `ActivateAllEntities`, `DeactivateAllEntities`,
`ActivateEntity`, `DeactivateEntity`) returns and keeps the property that each
record's entity is shown, and has its physics enabled, exactly when the record is
`currently_active`; hence the property holds after any sequence of operations
run from a state in which it holds. -/
theorem C20_sinks_follow_the_flags_without_nesting (sys : Scene) (ops : List Operation)
    (hwf : WellFormed sys.component_data_) (hfree : sys.nesting_free)
    (hcons : sys.consistent) :
    ∃ sys1, Scene.run ops sys = some sys1 ∧ sys1.consistent := by
  induction ops generalizing sys with
  | nil => exact ⟨sys, rfl, hcons⟩
  | cons op ops ih =>
    obtain ⟨sys1, h1, hwf1, hfree1, hcons1⟩ := Scene.apply_preserves sys op hwf hfree hcons
    obtain ⟨sys2, h2, hcons2⟩ := ih sys1 hwf1 hfree1 hcons1
    exact ⟨sys2, by simp only [Scene.run, h1, h2], hcons2⟩

theorem C20_sinks_follow_the_flags_without_nesting_witness :
    ∃ sys1, Scene.run [Operation.Tick f_half, Operation.ActivateAll, Operation.Deactivate 2,
        Operation.Tick f_two, Operation.DeactivateAll, Operation.Activate 3] demo_scene =
      some sys1 ∧ sys1.consistent :=
  C20_sinks_follow_the_flags_without_nesting demo_scene _ (by decide) (by decide) (by decide)

end LapDependent
